import Mathlib

/-!
Verification of the easig library: a generic linear interpolation function
and a first-order complementary filter.

The Rust source is generic over a type `T` bounded by
`Add<T, Output = T> + Mul<T, Output = T> + Mul<f32, Output = T>`.
We embed that capability set as an explicit record of operations
(`NumericOps`), and model the `f32` scalar with exact rational arithmetic
(`ℚ`), which keeps every definition computable and decidable.
-/

/-- The capability set demanded by the Rust trait bounds:
addition of two `T`s, multiplication of two `T`s, and multiplication of a
`T` by a scalar (`f32` in the source, modelled as `ℚ`). -/
structure NumericOps (T : Type) where
  add : T → T → T
  mul : T → T → T
  mulScalar : T → ℚ → T

/-- `pub fn lerp<T>(a: T, b: T, alpha: f32) -> T { a * (1.0 - alpha) + b * alpha }` -/
def lerp {T : Type} (ops : NumericOps T) (a b : T) (alpha : ℚ) : T :=
  ops.add (ops.mulScalar a (1 - alpha)) (ops.mulScalar b alpha)

/-- `pub struct ComplementaryFilter<T> { current_value: T, alpha: f32 }` -/
structure ComplementaryFilter (T : Type) where
  current_value : T
  alpha : ℚ

/-- `ComplementaryFilter::new(initial_value, alpha)`: stores both fields verbatim. -/
def ComplementaryFilter.new {T : Type} (initial_value : T) (alpha : ℚ) :
    ComplementaryFilter T :=
  ⟨initial_value, alpha⟩

/-- `ComplementaryFilter::set_alpha(&mut self, new_alpha)`: `self.alpha = new_alpha;` -/
def ComplementaryFilter.set_alpha {T : Type} (f : ComplementaryFilter T)
    (new_alpha : ℚ) : ComplementaryFilter T :=
  ⟨f.current_value, new_alpha⟩

/-- `ComplementaryFilter::predict_next(&mut self, value)`:
`let y_k = (value * self.alpha) + (self.current_value * (1.0 - self.alpha));
 self.current_value = y_k; y_k`.
Returned value first, updated state second. -/
def ComplementaryFilter.predict_next {T : Type} (ops : NumericOps T)
    (f : ComplementaryFilter T) (value : T) : T × ComplementaryFilter T :=
  let y_k := ops.add (ops.mulScalar value f.alpha)
    (ops.mulScalar f.current_value (1 - f.alpha))
  (y_k, ⟨y_k, f.alpha⟩)

/-- The scalar instance of the capability set: `T = f32` in the source,
modelled by exact rational arithmetic. -/
def qOps : NumericOps ℚ :=
  ⟨fun x y => x + y, fun x y => x * y, fun x s => x * s⟩

/-- One caller-visible filter operation, for reasoning about sequences
of calls: a `set_alpha` call or a `predict_next` call. -/
inductive FilterOp (T : Type) where
  | setAlpha (new_alpha : ℚ)
  | predictNext (value : T)

/-- Runs a sequence of filter operations, threading the filter state and
remembering the value most recently returned by `predict_next`
(`none` before the first such call). -/
def runOps {T : Type} (ops : NumericOps T) :
    List (FilterOp T) → ComplementaryFilter T × Option T →
    ComplementaryFilter T × Option T
  | [], s => s
  | FilterOp.setAlpha a :: rest, (f, last) =>
      runOps ops rest (f.set_alpha a, last)
  | FilterOp.predictNext v :: rest, (f, _) =>
      runOps ops rest ((ComplementaryFilter.predict_next ops f v).2,
        some (ComplementaryFilter.predict_next ops f v).1)

/-- The state/last-output agreement relation: whenever a value has been
returned by `predict_next`, the stored `current_value` equals it. -/
def AgreesWithLastOutput {T : Type} (s : ComplementaryFilter T × Option T) :
    Prop :=
  ∀ y, s.2 = some y → s.1.current_value = y

/-- One `predict_next` step with a fixed measurement `m`, on the scalar
instance; used to reason about repeated calls with the same measurement. -/
def stepSame (m : ℚ) (f : ComplementaryFilter ℚ) : ComplementaryFilter ℚ :=
  (ComplementaryFilter.predict_next qOps f m).2

/-- Claim C1: `predict_next value` computes
`y_k = (value * alpha) + (current_value * (1 - alpha))` with the scalings
and the addition in exactly that order, stores `y_k` as the new
`current_value`, and returns `y_k`. -/
theorem predict_next_formula_stores_and_returns {T : Type}
    (ops : NumericOps T) (f : ComplementaryFilter T) (value : T) :
    (ComplementaryFilter.predict_next ops f value).1 =
      ops.add (ops.mulScalar value f.alpha)
        (ops.mulScalar f.current_value (1 - f.alpha)) ∧
    (ComplementaryFilter.predict_next ops f value).2.current_value =
      (ComplementaryFilter.predict_next ops f value).1 :=
  ⟨rfl, rfl⟩

/-- Claim C2: `lerp a b alpha` computes `a * (1 - alpha) + b * alpha` in
exactly that order: the complement `(1 - alpha)` scales `a`, `alpha`
scales `b`, and the two scaled values are then summed. -/
theorem lerp_formula {T : Type} (ops : NumericOps T) (a b : T) (alpha : ℚ) :
    lerp ops a b alpha =
      ops.add (ops.mulScalar a (1 - alpha)) (ops.mulScalar b alpha) :=
  rfl

/-- Claim C10: `predict_next` leaves the `alpha` field unchanged;
`current_value` is the only field it mutates. -/
theorem predict_next_preserves_alpha {T : Type} (ops : NumericOps T)
    (f : ComplementaryFilter T) (value : T) :
    (ComplementaryFilter.predict_next ops f value).2.alpha = f.alpha :=
  rfl

/-- Claim C4: `set_alpha new_alpha` replaces the `alpha` field
unconditionally (for any `new_alpha`, in or out of `[0, 1]`) and leaves
`current_value` unchanged. -/
theorem set_alpha_frame {T : Type} (f : ComplementaryFilter T)
    (new_alpha : ℚ) :
    (f.set_alpha new_alpha).alpha = new_alpha ∧
    (f.set_alpha new_alpha).current_value = f.current_value :=
  ⟨rfl, rfl⟩

/-- Claim C3: over every sequence of filter operations, after any
`predict_next` call the stored `current_value` equals the value that call
returned, and no operation makes the stored state diverge from the last
output. -/
theorem runOps_agrees_with_last_output {T : Type} (ops : NumericOps T)
    (l : List (FilterOp T)) (s : ComplementaryFilter T × Option T)
    (h : AgreesWithLastOutput s) : AgreesWithLastOutput (runOps ops l s) := by
  induction l generalizing s with
  | nil => exact h
  | cons op rest ih =>
    cases op with
    | setAlpha a =>
      obtain ⟨f, last⟩ := s
      exact ih (f.set_alpha a, last) h
    | predictNext v =>
      obtain ⟨f, last⟩ := s
      exact ih _ (fun y hy => by
        simp only [Option.some.injEq] at hy
        exact hy)

/-- Witness for C3 at a concrete operation sequence. -/
theorem runOps_agrees_with_last_output_witness :
    AgreesWithLastOutput (runOps qOps
      [FilterOp.predictNext 2, FilterOp.setAlpha (1/4),
        FilterOp.predictNext 3]
      (ComplementaryFilter.new (1 : ℚ) (1/2), none)) :=
  runOps_agrees_with_last_output qOps
    [FilterOp.predictNext 2, FilterOp.setAlpha (1/4),
      FilterOp.predictNext 3]
    (ComplementaryFilter.new (1 : ℚ) (1/2), none)
    (fun y hy => by simp at hy)

/-- Claim C5: on the scalar instance, `lerp a b 0 = a` and
`lerp a b 1 = b` exactly. -/
theorem lerp_endpoints (a b : ℚ) :
    lerp qOps a b 0 = a ∧ lerp qOps a b 1 = b := by
  constructor <;> simp [lerp, qOps]

/-- Claim C6: on the scalar instance, for `alpha ∈ [0, 1]`,
`lerp a b alpha` lies between `a` and `b` inclusive. -/
theorem lerp_between (a b alpha : ℚ) (h0 : 0 ≤ alpha) (h1 : alpha ≤ 1) :
    min a b ≤ lerp qOps a b alpha ∧ lerp qOps a b alpha ≤ max a b := by
  simp only [lerp, qOps]
  rcases le_total a b with hab | hab
  · constructor
    · rw [min_eq_left hab]; nlinarith
    · rw [max_eq_right hab]; nlinarith
  · constructor
    · rw [min_eq_right hab]; nlinarith
    · rw [max_eq_left hab]; nlinarith

/-- Witness for C6 at `a = 1`, `b = 3`, `alpha = 1/2`. -/
theorem lerp_between_witness :
    min (1 : ℚ) 3 ≤ lerp qOps 1 3 (1/2) ∧ lerp qOps 1 3 (1/2) ≤ max 1 3 :=
  lerp_between 1 3 (1/2) (by norm_num) (by norm_num)

/-- Claim C7: with `alpha` fixed in `(0, 1)`, after `n` calls of
`predict_next` with the same measurement `m`, the distance from `m`
equals the initial distance scaled by `(1 - alpha)^n`. -/
theorem predict_next_geometric_convergence (f : ComplementaryFilter ℚ)
    (m : ℚ) (n : ℕ) (h0 : 0 < f.alpha) (h1 : f.alpha < 1) :
    ((stepSame m)^[n] f).current_value - m =
      (1 - f.alpha) ^ n * (f.current_value - m) := by
  have key : ∀ k : ℕ, ((stepSame m)^[k] f).alpha = f.alpha ∧
      ((stepSame m)^[k] f).current_value - m =
        (1 - f.alpha) ^ k * (f.current_value - m) := by
    intro k
    induction k with
    | zero => simp
    | succ k ih =>
      obtain ⟨iha, ihv⟩ := ih
      rw [Function.iterate_succ_apply']
      constructor
      · simp [stepSame, ComplementaryFilter.predict_next, iha]
      · simp only [stepSame, ComplementaryFilter.predict_next, qOps, iha]
        have expand : m * f.alpha +
            ((stepSame m)^[k] f).current_value * (1 - f.alpha) - m =
            (1 - f.alpha) * (((stepSame m)^[k] f).current_value - m) := by
          ring
        rw [expand, ihv, pow_succ]
        ring
  exact (key n).2

/-- Witness for C7: alpha `= 1/2`, initial value `0`, measurement `1`,
two steps. -/
theorem predict_next_geometric_convergence_witness :
    ((stepSame 1)^[2] (ComplementaryFilter.new (0 : ℚ) (1/2))).current_value
        - 1 =
      (1 - (ComplementaryFilter.new (0 : ℚ) (1/2)).alpha) ^ 2 *
        ((ComplementaryFilter.new (0 : ℚ) (1/2)).current_value - 1) :=
  predict_next_geometric_convergence (ComplementaryFilter.new (0 : ℚ) (1/2))
    1 2 (by norm_num [ComplementaryFilter.new])
    (by norm_num [ComplementaryFilter.new])

/-- Claim C8: on the scalar instance, with `alpha = 0` the filter returns
`current_value` unchanged, and with `alpha = 1` it returns the measurement
unchanged. -/
theorem predict_next_degenerate_alpha (c v : ℚ) :
    (ComplementaryFilter.predict_next qOps ⟨c, 0⟩ v).1 = c ∧
    (ComplementaryFilter.predict_next qOps ⟨c, 1⟩ v).1 = v := by
  constructor <;> simp [ComplementaryFilter.predict_next, qOps]

/-- Claim C9: when the addition of the conforming type is commutative,
`predict_next value` returns the same result as
`lerp current_value value alpha`. -/
theorem predict_next_eq_lerp {T : Type} (ops : NumericOps T)
    (f : ComplementaryFilter T) (value : T)
    (hcomm : ∀ x y, ops.add x y = ops.add y x) :
    (ComplementaryFilter.predict_next ops f value).1 =
      lerp ops f.current_value value f.alpha := by
  simp only [ComplementaryFilter.predict_next, lerp]
  exact hcomm _ _

/-- Witness for C9 on the scalar instance at `current_value = 2`,
`alpha = 1/3`, measurement `5`. -/
theorem predict_next_eq_lerp_witness :
    (ComplementaryFilter.predict_next qOps ⟨2, 1/3⟩ 5).1 =
      lerp qOps 2 5 (1/3) :=
  predict_next_eq_lerp qOps ⟨2, 1/3⟩ 5 (fun x y => add_comm x y)
